import Mathlib

/-!
Shallow embedding of `py_src/yolov4/tf/__init__.py` (class `YoloV4`) of the
`tensorflow-yolov4` repository.

Python floats are modelled as exact rationals `ℚ`; the cosine learning-rate
schedule, which the code computes with `tf.cos` and `np.pi`, is modelled over
`ℝ` with `Real.cos` and `Real.pi`.  Tensors produced by the external Keras
network are abstract type parameters.  The modules `..core.utils`,
`..core.yolov4` and `..core.dataset` that this file imports are not part of
the repository snapshot; where a property depends on their behaviour they are
either abstract function parameters or modelled from the specification
(each such definition carries a doc comment starting `Modelled from the
spec:`); where they are irrelevant to a property they stay abstract.
-/

/-- State of a `YoloV4` object.  `__init__` sets `strides`,
`anchors` (an array of 18 pixel sizes reshaped to 3×3×2), `xyscale` and
`width = height = 608`.  The remaining attributes are created later by the
`classes` setter, `load_weights` and `make_model`; they are modelled with
inert defaults (`[]`, `0`, `false`, `none`).  `M` is the abstract type of the
external Keras model object. -/
structure YoloV4 (M : Type) where
  strides : List ℚ
  anchors : List (List (ℚ × ℚ))
  xyscale : List ℚ
  width : ℚ
  height : ℚ
  _classes : List (ℕ × String) := []
  num_class : ℕ := 0
  _has_weights : Bool := false
  model : Option M := none

variable {M F I P T : Type}

/-- `YoloV4.__init__`: the constructor's literal assignments, with the
flat 18-entry anchor array written in its `reshape(3, 3, 2)` form. -/
def YoloV4.init (M : Type) : YoloV4 M where
  strides := [8, 16, 32]
  anchors := [[(12, 16), (19, 36), (40, 28)],
              [(36, 75), (76, 55), (72, 146)],
              [(142, 110), (192, 243), (459, 401)]]
  xyscale := [1.2, 1.1, 1.05]
  width := 608
  height := 608

/-- The configuration fields set by `__init__`, bundled so that preservation
by the mutating methods can be stated once. -/
def configOf (y : YoloV4 M) : List ℚ × List (List (ℚ × ℚ)) × List ℚ × ℚ × ℚ :=
  (y.strides, y.anchors, y.xyscale, y.width, y.height)

/-- Argument of the `classes` property setter: the annotated
`Union[str, dict]`, plus a constructor standing for a value of any other
runtime type (which the setter rejects with `TypeError`). -/
inductive ClassesData where
  | str (path : String)
  | dict (d : List (ℕ × String))
  | other

/-- The `classes` property setter.  `utils.read_class_names` is external and
abstracted as `read_class_names`; a class dictionary is a finite `ℕ → String`
association list.  The result pairs the updated object with the message of
the raised `TypeError`, if any; in the source the `raise` precedes every
assignment, so on the error path the object is returned unchanged. -/
def classes_setter (read_class_names : String → List (ℕ × String))
    (y : YoloV4 M) (data : ClassesData) : YoloV4 M × Option String :=
  match data with
  | .str path =>
      let c := read_class_names path
      ({ y with _classes := c, num_class := c.length }, none)
  | .dict d => ({ y with _classes := d, num_class := d.length }, none)
  | .other => (y, some "YoloV4: Set classes path or dictionary")

/-- `YoloV4.load_weights`.  The two external loaders
(`utils.load_weights` for `weights_type == "yolo"`, Keras
`model.load_weights(...).expect_partial()` for `"tf"`) are abstract
parameters acting on the model object; any other `weights_type` falls
through both branches.  In every case the method ends by setting
`self._has_weights = True`. -/
def load_weights (utils_load : M → String → M) (keras_load : M → String → M)
    (y : YoloV4 M) (path : String) (weights_type : String) : YoloV4 M :=
  let y1 :=
    if weights_type = "yolo" then
      { y with model := y.model.map (fun m => utils_load m path) }
    else if weights_type = "tf" then
      { y with model := y.model.map (fun m => keras_load m path) }
    else y
  { y1 with _has_weights := true }

/-- `learning_rate_init = 1e-3` (line 145). -/
def learning_rate_init : ℚ := 1e-3

/-- `learning_rate_end = 1e-6` (line 146). -/
def learning_rate_end : ℚ := 1e-6

/-- `first_stage_epochs`: `int(epochs * 0.3)` when `self._has_weights` else
`0`; Python `int` truncates, which on a nonnegative float is the floor. -/
def first_stage_epochs (has_weights : Bool) (epochs : ℕ) : ℕ :=
  if has_weights then (⌊(epochs : ℚ) * 0.3⌋).toNat else 0

/-- `second_stage_epochs = epochs - first_stage_epochs`. -/
def second_stage_epochs (has_weights : Bool) (epochs : ℕ) : ℕ :=
  epochs - first_stage_epochs has_weights epochs

/-- `warmup_steps = 2 * steps_per_epoch`. -/
def warmup_steps (steps_per_epoch : ℕ) : ℕ := 2 * steps_per_epoch

/-- `total_steps = (first_stage_epochs + second_stage_epochs) * steps_per_epoch`. -/
def total_steps (has_weights : Bool) (epochs steps_per_epoch : ℕ) : ℕ :=
  (first_stage_epochs has_weights epochs + second_stage_epochs has_weights epochs)
    * steps_per_epoch

/-- The learning-rate update at the end of `train_step`, evaluated at the
value `global_steps` holds after `global_steps.assign_add(1)` (the increment
happens before the comparison with `warmup_steps` and before `lr` is
computed).  `tot` is the `total_steps` value of the enclosing `train`. -/
noncomputable def train_lr (steps_per_epoch tot global_steps : ℕ) : ℝ :=
  if global_steps < warmup_steps steps_per_epoch then
    (global_steps : ℝ) / (warmup_steps steps_per_epoch : ℝ) * (learning_rate_init : ℝ)
  else
    (learning_rate_end : ℝ) + 0.5 * ((learning_rate_init : ℝ) - (learning_rate_end : ℝ)) *
      (1 + Real.cos (((global_steps : ℝ) - (warmup_steps steps_per_epoch : ℝ)) /
        ((tot : ℝ) - (warmup_steps steps_per_epoch : ℝ)) * Real.pi))

/-- The loss accumulation shared by `train_step` and `test_step`: starting
from `giou_loss = conf_loss = prob_loss = 0`, loop `i` over `range(3)`,
take `conv = pred_result[i * 2]` and `pred = pred_result[i * 2 + 1]`, call
`yolov4.compute_loss(pred, conv, target[i][0], target[i][1], ...)` and add
the three returned items.  `yolov4.compute_loss` is external; it is
abstracted as `compute_loss pred conv (target i) i` with the fixed
arguments (`strides`, `num_class`, `iou_loss_threshold`) folded in.
Python list indexing raises on out-of-range access; `getD` with an explicit
`fallback` models the in-range behaviour (the model always returns 6
tensors in training mode). -/
def train_step_losses (fallback : T) (pred_result : List T) (target : ℕ → T × T)
    (compute_loss : T → T → T × T → ℕ → ℚ × ℚ × ℚ) : ℚ × ℚ × ℚ :=
  (List.range 3).foldl
    (fun acc i =>
      let conv := pred_result.getD (i * 2) fallback
      let pred := pred_result.getD (i * 2 + 1) fallback
      let loss_items := compute_loss pred conv (target i) i
      (acc.1 + loss_items.1, acc.2.1 + loss_items.2.1, acc.2.2 + loss_items.2.2))
    (0, 0, 0)

/-- `total_loss = giou_loss + conf_loss + prob_loss` after the loop. -/
def train_step_total_loss (fallback : T) (pred_result : List T) (target : ℕ → T × T)
    (compute_loss : T → T → T × T → ℕ → ℚ × ℚ × ℚ) : ℚ :=
  let l := train_step_losses fallback pred_result target compute_loss
  l.1 + l.2.1 + l.2.2

/-- The `bbox_tensors` list built by `make_model` from the network's
`feature_maps` (external `yolov4.YOLOv4`; its three outputs are the input
list): per feature map `fm` with loop index `i`, in training mode the loop
body computes `bbox_tensor = decode_train(fm, ...)`, appends `fm`, and then
appends `bbox_tensor`; in inference mode it appends only
`decode(fm, num_class, i)`.  `decode_train` and `decode` are external
(`..core.yolov4`) and abstracted with their varying arguments `fm` and `i`. -/
def make_model_bbox_tensors (decode_train : T → ℕ → T) (decode : T → ℕ → T)
    (is_training : Bool) : ℕ → List T → List T
  | _, [] => []
  | i, fm :: rest =>
      (if is_training then [fm, decode_train fm i] else [decode fm i]) ++
        make_model_bbox_tensors decode_train decode is_training (i + 1) rest

/-- `YoloV4.make_model` as a state transformer: it sets
`self._has_weights = False` and replaces `self.model` with a freshly built
Keras model (abstracted as `build` applied to the data it depends on). -/
def make_model (build : ℕ → Bool → M) (y : YoloV4 M) (is_training : Bool) : YoloV4 M :=
  { y with _has_weights := false, model := some (build y.num_class is_training) }

/-- A candidate detection after `postprocess_boxes`:
`(xmin, ymin, xmax, ymax, score, class_id)`. -/
structure BBox where
  xmin : ℚ
  ymin : ℚ
  xmax : ℚ
  ymax : ℚ
  score : ℚ
  cls : ℕ
deriving DecidableEq

/-- A decoded prediction row entering `postprocess_boxes`:
center `x, y`, size `w, h` (model-input pixel coordinates), objectness
`conf`, and the per-class probability vector `probs`. -/
structure RawDet where
  x : ℚ
  y : ℚ
  w : ℚ
  h : ℚ
  conf : ℚ
  probs : List ℚ
deriving DecidableEq

/-- `max(probs)`, with `0` for an empty vector. -/
def max_prob (probs : List ℚ) : ℚ := probs.foldr max 0

/-- `argmax(probs)`: index of the first occurrence of the maximum. -/
def best_class (probs : List ℚ) : ℕ := probs.indexOf (max_prob probs)

/-- Modelled from the spec: `utils.postprocess_boxes` (the Multi-Scale
Aggregator + Score Filter of spec §4.2; the module `..core.utils` is not in
the snapshot).  Per candidate: convert `(center, size)` to corners; undo the
letterbox-preserving resize (`resize_ratio` is the minimum of the two
input/original ratios, half the padding is subtracted before dividing by the
ratio); clip into `[0, org_w] × [0, org_h]`; discard boxes of nonpositive
area; `score = objectness * max(class_probabilities)` with the argmax class
recorded; keep a box iff its score is at least `score_threshold` (spec §8:
the boundary is inclusive).  `frame_size` is `frame.shape[:2] = (h, w)`. -/
def postprocess_boxes (pred_bbox : List RawDet) (frame_size : ℚ × ℚ)
    (input_size score_threshold : ℚ) : List BBox :=
  let org_h := frame_size.1
  let org_w := frame_size.2
  pred_bbox.filterMap (fun d =>
    let rscale := min (input_size / org_w) (input_size / org_h)
    let dw := (input_size - rscale * org_w) / 2
    let dh := (input_size - rscale * org_h) / 2
    let xmin := max (((d.x - d.w / 2) - dw) / rscale) 0
    let ymin := max (((d.y - d.h / 2) - dh) / rscale) 0
    let xmax := min (((d.x + d.w / 2) - dw) / rscale) org_w
    let ymax := min (((d.y + d.h / 2) - dh) / rscale) org_h
    let score := d.conf * max_prob d.probs
    if xmin < xmax ∧ ymin < ymax ∧ score_threshold ≤ score then
      some ⟨xmin, ymin, xmax, ymax, score, best_class d.probs⟩
    else none)

/-- Modelled from the spec: the IoU of two corner-form boxes
(spec §4.4): intersection dimensions clamped to `≥ 0`, and a zero-division
guard returning `0` when the union area is `0`. -/
def bboxes_iou (a b : BBox) : ℚ :=
  let iw := max (min a.xmax b.xmax - max a.xmin b.xmin) 0
  let ih := max (min a.ymax b.ymax - max a.ymin b.ymin) 0
  let inter := iw * ih
  let union := (a.xmax - a.xmin) * (a.ymax - a.ymin) +
    (b.xmax - b.xmin) * (b.ymax - b.ymin) - inter
  if union = 0 then 0 else inter / union

/-- Pick the remaining candidate with the highest score and return it with
the other candidates in their original order; on ties the earliest wins
(spec §4.3: deterministic stable tie-breaking). -/
def select_max_score : List BBox → Option (BBox × List BBox)
  | [] => none
  | b :: rest =>
      match select_max_score rest with
      | none => some (b, [])
      | some (m, others) =>
          if m.score > b.score then some (m, b :: others) else some (b, rest)

/-- Modelled from the spec: one class's hard-NMS rounds (spec §4.3): pick
the highest-score candidate as a final detection, remove every remaining
candidate whose IoU with it is at least the threshold, repeat.  Structural
recursion on an explicit fuel; each round consumes at least one candidate,
so fuel `cand.length` is enough. -/
def nms_one_class (iou_threshold : ℚ) : ℕ → List BBox → List BBox
  | 0, _ => []
  | fuel + 1, cand =>
      match select_max_score cand with
      | none => []
      | some (best, rest) =>
          best :: nms_one_class iou_threshold fuel
            (rest.filter (fun x => bboxes_iou best x < iou_threshold))

/-- The distinct class ids present in a candidate list, in first-occurrence
order. -/
def classes_in_img (l : List BBox) : List ℕ := (l.map (fun b => b.cls)).dedup

/-- Modelled from the spec: `utils.nms` (spec §4.3).  The hard method (tag
`"nms"`, the only one `predict` uses) runs the greedy suppression once per
distinct class id over that class's candidates and concatenates the
per-class results.  The soft method's Gaussian score decay involves `exp`
and is kept abstract as `soft`; the claims below hold for every `soft`. -/
def nms (soft : List BBox → List BBox) (bboxes : List BBox) (iou_threshold : ℚ)
    (method : String) : List BBox :=
  if method = "nms" then
    (classes_in_img bboxes).flatMap (fun c =>
      nms_one_class iou_threshold
        (bboxes.filter (fun b => b.cls = c)).length
        (bboxes.filter (fun b => b.cls = c)))
  else soft bboxes

/-- The detection list `predict` computes before drawing: the decoded
predictions are filtered by `postprocess_boxes(..., self.width, 0.25)` and
then suppressed by `nms(bboxes, 0.213, method="nms")` (source lines
368-371). -/
def predict_detections (pred_bbox : List RawDet) (frame_size : ℚ × ℚ) (width : ℚ)
    (soft : List BBox → List BBox) : List BBox :=
  nms soft (postprocess_boxes pred_bbox frame_size width 0.25) 0.213 "nms"

/-- The external collaborators `predict` calls, abstracted: `F` frames, `I`
preprocessed image batches, `P` raw network output; `frame_shape` is
`frame.shape[:2]`, `image_preprocess` is `utils.image_preprocess` applied to
`np.copy(frame)` (value semantics make the copy the identity),
`model_predict` is Keras `model.predict`, `postprocess_bbbox` is
`utils.postprocess_bbbox(pred, anchors, strides, xyscale)`, `draw_bbox` is
`utils.draw_bbox`, and `soft_nms` stands for the unused soft branch of
`utils.nms`. -/
structure PredictEnv (M F I P : Type) where
  frame_shape : F → ℚ × ℚ
  image_preprocess : F → ℚ × ℚ → I
  model_predict : M → I → P
  postprocess_bbbox : P → List (List (ℚ × ℚ)) → List ℚ → List ℚ → List RawDet
  draw_bbox : F → List BBox → List (ℕ × String) → F
  soft_nms : List BBox → List BBox

/-- `YoloV4.predict`: preprocess a copy of the frame to the model's input
size, run the model, decode with `postprocess_bbbox`, filter with threshold
`0.25`, suppress with `nms(..., 0.213, method="nms")`, and draw.  Returns
`none` when `self.model` was never created (Python would raise
`AttributeError`). -/
def predict (env : PredictEnv M F I P) (y : YoloV4 M) (frame : F)
    (classes : List (ℕ × String)) : Option F :=
  y.model.map (fun m =>
    let frame_size := env.frame_shape frame
    let image_data := env.image_preprocess frame (y.height, y.width)
    let pred_bbox := env.postprocess_bbbox (env.model_predict m image_data)
      y.anchors y.strides y.xyscale
    let bboxes := predict_detections pred_bbox frame_size y.width env.soft_nms
    env.draw_bbox frame bboxes classes)

/-- `predict` as a state transformer, pairing the produced image with the
object state after the call: the method body contains no assignment to
`self`, so the state it returns is the state it was given. -/
def predict_call (env : PredictEnv M F I P) (y : YoloV4 M) (frame : F)
    (classes : List (ℕ × String)) : Option F × YoloV4 M :=
  (predict env y frame classes, y)

/-- Outcome of the video branch of `YoloV4.inference`. -/
inductive VideoOutcome where
  | raised (msg : String)
  | quit
  | running
deriving DecidableEq

/-- The `while True` loop of `YoloV4.inference` with `is_image=False`,
iterating from frame index `k` with explicit fuel: `vid.read()` is the
abstract stream `read` (`none` models `return_value` false — an unreadable
stream or the end of the video), and `key_q k` tells whether
`cv2.waitKey(...) & 0xFF == ord("q")` at iteration `k`.  A failed read
raises `ValueError("No image! Try with another video format")`; a successful
read is processed and the loop breaks iff `q` was pressed. -/
def inference_video_loop (read : ℕ → Option F) (key_q : ℕ → Bool) :
    ℕ → ℕ → VideoOutcome
  | 0, _ => .running
  | fuel + 1, k =>
      match read k with
      | none => .raised "No image! Try with another video format"
      | some _ =>
          if key_q k then .quit
          else inference_video_loop read key_q fuel (k + 1)

/-- The keyword defaults of `YoloV4.train`'s signature. -/
structure TrainArgs where
  trained_weights_path : String := "./checkpoints"
  log_dir_path : String := "./log"
  iou_loss_threshold : ℚ := 0.5
  dataset_type : String := "converted_coco"
  epochs : ℕ := 50
  save_interval : ℕ := 1

/-- C1: for each training step the total loss is the sum over the 3
detection scales of the three per-scale loss terms returned by
`compute_loss`, where scale `i` reads the `(conv, pred)` pair
`(pred_result[i * 2], pred_result[i * 2 + 1])`. -/
theorem train_step_total_loss_eq_sum_over_scales (fallback : T) (pred_result : List T)
    (target : ℕ → T × T) (compute_loss : T → T → T × T → ℕ → ℚ × ℚ × ℚ) :
    train_step_total_loss fallback pred_result target compute_loss =
      ∑ i ∈ Finset.range 3,
        ((compute_loss (pred_result.getD (i * 2 + 1) fallback)
            (pred_result.getD (i * 2) fallback) (target i) i).1 +
          (compute_loss (pred_result.getD (i * 2 + 1) fallback)
            (pred_result.getD (i * 2) fallback) (target i) i).2.1 +
          (compute_loss (pred_result.getD (i * 2 + 1) fallback)
            (pred_result.getD (i * 2) fallback) (target i) i).2.2) := by
  simp only [train_step_total_loss, train_step_losses, List.range_succ, List.range_zero,
    List.foldl_append, List.foldl_cons, List.foldl_nil, List.nil_append,
    Finset.sum_range_succ, Finset.sum_range_zero]
  ring

/-- C3: during warmup (post-increment counter `s < 2 * steps_per_epoch`) the
learning rate is set to `(s / (2 * steps_per_epoch)) * 1e-3`, and it grows
linearly with the step counter. -/
theorem train_lr_warmup (spe tot s : ℕ) (h : s < 2 * spe) :
    train_lr spe tot s = (s : ℝ) / (2 * spe) * (1e-3 : ℝ) ∧
    (∀ s' : ℕ, s' < 2 * spe →
      train_lr spe tot s' - train_lr spe tot s =
        ((s' : ℝ) - (s : ℝ)) * ((1e-3 : ℝ) / (2 * spe))) := by
  have hspe : (0 : ℝ) < 2 * spe := by
    have h0 : 0 < spe := by omega
    have : (0 : ℝ) < (spe : ℝ) := by exact_mod_cast h0
    linarith
  have hinit : ((learning_rate_init : ℚ) : ℝ) = (1e-3 : ℝ) := by
    norm_num [learning_rate_init]
  constructor
  · rw [train_lr, if_pos (by simpa [warmup_steps] using h)]
    simp only [warmup_steps, hinit]
    push_cast
    ring
  · intro s' h'
    rw [train_lr, train_lr, if_pos (by simpa [warmup_steps] using h'),
      if_pos (by simpa [warmup_steps] using h)]
    simp only [warmup_steps, hinit]
    push_cast
    field_simp
    ring

/-- Witness for `train_lr_warmup` at `steps_per_epoch = 2`, counter `3`. -/
theorem train_lr_warmup_witness :
    (3 < 2 * 2) ∧
    (train_lr 2 10 3 = (3 : ℝ) / (2 * 2) * (1e-3 : ℝ) ∧
      (∀ s' : ℕ, s' < 2 * 2 →
        train_lr 2 10 s' - train_lr 2 10 3 =
          ((s' : ℝ) - (3 : ℝ)) * ((1e-3 : ℝ) / (2 * 2)))) :=
  ⟨by norm_num, train_lr_warmup 2 10 3 (by norm_num)⟩

/-- `first_stage_epochs` is never larger than `epochs`, so
`total_steps = epochs * steps_per_epoch`. -/
theorem total_steps_eq (hw : Bool) (epochs spe : ℕ) :
    total_steps hw epochs spe = epochs * spe := by
  have hle : first_stage_epochs hw epochs ≤ epochs := by
    cases hw with
    | false => simp [first_stage_epochs]
    | true =>
        simp only [first_stage_epochs, if_pos]
        have h1 : ((epochs : ℚ) * 0.3) ≤ (epochs : ℚ) := by
          have : (0 : ℚ) ≤ (epochs : ℚ) := by positivity
          nlinarith
        have h2 : ⌊(epochs : ℚ) * 0.3⌋ ≤ (epochs : ℤ) := by
          calc ⌊(epochs : ℚ) * 0.3⌋ ≤ ⌊(epochs : ℚ)⌋ := Int.floor_le_floor h1
            _ = (epochs : ℤ) := Int.floor_natCast epochs
        exact Int.toNat_le.mpr h2
  simp only [total_steps, second_stage_epochs]
  rw [Nat.add_sub_cancel' hle]

/-- C4: after warmup (counter `s ≥ 2 * steps_per_epoch`) the learning rate
equals `lr_end + 0.5 * (lr_init - lr_end) * (1 + cos(pi * (s - warmup) /
(total - warmup)))` with `lr_init = 1e-3`, `lr_end = 1e-6`,
`total_steps = epochs * steps_per_epoch`; it equals `lr_init` at
`s = warmup_steps` and `lr_end` at `s = total_steps`. -/
theorem train_lr_cosine (hw : Bool) (epochs spe s : ℕ)
    (h : warmup_steps spe ≤ s)
    (hlt : warmup_steps spe < total_steps hw epochs spe) :
    total_steps hw epochs spe = epochs * spe ∧
    train_lr spe (total_steps hw epochs spe) s =
      (1e-6 : ℝ) + 0.5 * ((1e-3 : ℝ) - (1e-6 : ℝ)) *
        (1 + Real.cos (((s : ℝ) - (warmup_steps spe : ℝ)) /
          ((total_steps hw epochs spe : ℝ) - (warmup_steps spe : ℝ)) * Real.pi)) ∧
    train_lr spe (total_steps hw epochs spe) (warmup_steps spe) = (1e-3 : ℝ) ∧
    train_lr spe (total_steps hw epochs spe) (total_steps hw epochs spe) = (1e-6 : ℝ) := by
  have hinit : ((learning_rate_init : ℚ) : ℝ) = (1e-3 : ℝ) := by
    norm_num [learning_rate_init]
  have hend : ((learning_rate_end : ℚ) : ℝ) = (1e-6 : ℝ) := by
    norm_num [learning_rate_end]
  refine ⟨total_steps_eq hw epochs spe, ?_, ?_, ?_⟩
  · rw [train_lr, if_neg (not_lt.mpr h), hinit, hend]
  · rw [train_lr, if_neg (lt_irrefl _), hinit, hend, sub_self, zero_div, zero_mul,
      Real.cos_zero]
    norm_num
  · have hne : ((total_steps hw epochs spe : ℝ)) - (warmup_steps spe : ℝ) ≠ 0 := by
      have : (warmup_steps spe : ℝ) < (total_steps hw epochs spe : ℝ) := by
        exact_mod_cast hlt
      linarith
    rw [train_lr, if_neg (not_lt.mpr (le_of_lt hlt)), hinit, hend, div_self hne, one_mul,
      Real.cos_pi]
    norm_num

/-- Witness for `train_lr_cosine` at `steps_per_epoch = 1`, `epochs = 3`,
no pretrained weights, counter `s = 2 = warmup_steps`. -/
theorem train_lr_cosine_witness :
    (warmup_steps 1 ≤ 2 ∧ warmup_steps 1 < total_steps false 3 1) ∧
    (total_steps false 3 1 = 3 * 1 ∧
      train_lr 1 (total_steps false 3 1) 2 =
        (1e-6 : ℝ) + 0.5 * ((1e-3 : ℝ) - (1e-6 : ℝ)) *
          (1 + Real.cos ((((2 : ℕ) : ℝ) - (warmup_steps 1 : ℝ)) /
            ((total_steps false 3 1 : ℝ) - (warmup_steps 1 : ℝ)) * Real.pi)) ∧
      train_lr 1 (total_steps false 3 1) (warmup_steps 1) = (1e-3 : ℝ) ∧
      train_lr 1 (total_steps false 3 1) (total_steps false 3 1) = (1e-6 : ℝ)) :=
  ⟨⟨by decide, by decide⟩, train_lr_cosine false 3 1 2 (by decide) (by decide)⟩

/-- C5: with the network's three feature maps, `make_model` builds 6 output
tensors in training mode — for scale `i` the raw conv tensor at index `2 i`
and the training-decoded tensor at index `2 i + 1` — and 3 inference-decoded
tensors in inference mode, in fixed scale order. -/
theorem make_model_bbox_tensors_spec (decode_train : T → ℕ → T) (decode : T → ℕ → T)
    (f0 f1 f2 : T) :
    make_model_bbox_tensors decode_train decode true 0 [f0, f1, f2] =
      [f0, decode_train f0 0, f1, decode_train f1 1, f2, decode_train f2 2] ∧
    make_model_bbox_tensors decode_train decode false 0 [f0, f1, f2] =
      [decode f0 0, decode f1 1, decode f2 2] := by
  constructor <;> rfl

/-- C6: a newly constructed `YoloV4` has strides `(8, 16, 32)`, the 9 anchor
sizes arranged 3 scales × 3 anchors × 2, xy-scale `(1.2, 1.1, 1.05)`,
resolution 608×608; `train` defaults `iou_loss_threshold` to `0.5` and uses
learning rates `1e-3` and `1e-6`; and no method of the class modifies the
strides, anchors, xyscale or resolution. -/
theorem yolov4_default_config (M F I P : Type) :
    (YoloV4.init M).strides = [8, 16, 32] ∧
    (YoloV4.init M).anchors = [[(12, 16), (19, 36), (40, 28)],
      [(36, 75), (76, 55), (72, 146)],
      [(142, 110), (192, 243), (459, 401)]] ∧
    (YoloV4.init M).xyscale = [1.2, 1.1, 1.05] ∧
    (YoloV4.init M).width = 608 ∧ (YoloV4.init M).height = 608 ∧
    ({} : TrainArgs).iou_loss_threshold = 0.5 ∧
    learning_rate_init = 1e-3 ∧ learning_rate_end = 1e-6 ∧
    (∀ f (y : YoloV4 M) d, configOf (classes_setter f y d).1 = configOf y) ∧
    (∀ ul kl (y : YoloV4 M) p wt, configOf (load_weights ul kl y p wt) = configOf y) ∧
    (∀ b (y : YoloV4 M) t, configOf (make_model b y t) = configOf y) ∧
    (∀ (env : PredictEnv M F I P) y fr c, configOf (predict_call env y fr c).2 = configOf y) := by
  refine ⟨rfl, rfl, rfl, rfl, rfl, rfl, rfl, rfl, ?_, ?_, ?_, ?_⟩
  · intro f y d
    cases d <;> rfl
  · intro ul kl y p wt
    simp only [load_weights, configOf]
    split <;> try rfl
    split <;> rfl
  · intro b y t
    rfl
  · intro env y fr c
    rfl

/-- C9: the `classes` setter raises `TypeError` on a value that is neither a
`str` nor a `dict`, leaving the object (hence `_classes` and `num_class`)
unchanged; on a `dict` it stores exactly that dictionary and its size; on a
`str` it sets `num_class` to the number of classes read from the file. -/
theorem classes_setter_spec (f : String → List (ℕ × String)) (y : YoloV4 M)
    (d : List (ℕ × String)) (p : String) :
    classes_setter f y .other = (y, some "YoloV4: Set classes path or dictionary") ∧
    (classes_setter f y (.dict d)).1._classes = d ∧
    (classes_setter f y (.dict d)).1.num_class = d.length ∧
    (classes_setter f y (.dict d)).2 = none ∧
    (classes_setter f y (.str p)).1._classes = f p ∧
    (classes_setter f y (.str p)).1.num_class = (f p).length :=
  ⟨rfl, rfl, rfl, rfl, rfl, rfl⟩

/-- `first_stage_epochs true epochs` equals natural division `3 * epochs / 10`. -/
theorem first_stage_epochs_true_eq (epochs : ℕ) :
    first_stage_epochs true epochs = 3 * epochs / 10 := by
  simp only [first_stage_epochs, if_pos]
  have h : ((epochs : ℚ) * 0.3) = ((3 * epochs : ℕ) : ℚ) / ((10 : ℕ) : ℚ) := by
    push_cast
    ring
  rw [h, Int.floor_toNat, Nat.floor_div_nat, Nat.floor_natCast]

/-- C10 (amended): `load_weights` marks the object as having weights for
every `weights_type`; when `weights_type` is neither `"yolo"` nor `"tf"` no
loader runs and the only effect is `_has_weights = True`, which makes
`train` use a first-stage freeze period of `int(epochs * 0.3)` epochs —
nonzero whenever `epochs ≥ 4` (e.g. `15` with the default `epochs = 50`). -/
theorem load_weights_marks_has_weights (ul kl : M → String → M) (y : YoloV4 M)
    (p wt : String) (epochs : ℕ) (h1 : wt ≠ "yolo") (h2 : wt ≠ "tf") :
    (∀ wt' : String, (load_weights ul kl y p wt')._has_weights = true) ∧
    load_weights ul kl y p wt = { y with _has_weights := true } ∧
    first_stage_epochs true epochs = 3 * epochs / 10 ∧
    first_stage_epochs false epochs = 0 ∧
    (4 ≤ epochs → 0 < first_stage_epochs true epochs) ∧
    first_stage_epochs true 50 = 15 := by
  refine ⟨?_, ?_, first_stage_epochs_true_eq epochs, rfl, ?_, ?_⟩
  · intro wt'
    rfl
  · simp only [load_weights, if_neg h1, if_neg h2]
  · intro h4
    rw [first_stage_epochs_true_eq]
    omega
  · rw [first_stage_epochs_true_eq]

/-- Witness for `load_weights_marks_has_weights` at `weights_type = "bogus"`,
`epochs = 50`. -/
theorem load_weights_marks_has_weights_witness :
    ((∀ wt' : String,
        (load_weights (fun m _ => m) (fun m _ => m) (YoloV4.init Unit) "w" wt')._has_weights
          = true) ∧
      load_weights (fun m _ => m) (fun m _ => m) (YoloV4.init Unit) "w" "bogus" =
        { YoloV4.init Unit with _has_weights := true } ∧
      first_stage_epochs true 50 = 3 * 50 / 10 ∧
      first_stage_epochs false 50 = 0 ∧
      (4 ≤ 50 → 0 < first_stage_epochs true 50) ∧
      first_stage_epochs true 50 = 15) :=
  load_weights_marks_has_weights (fun m _ => m) (fun m _ => m) (YoloV4.init Unit) "w"
    "bogus" 50 (by decide) (by decide)

/-- Counterexample to C10 as stated: with `epochs = 3`, calling
`load_weights` with an unrecognized `weights_type` does mark the object as
having weights, yet the first-stage freeze period `int(epochs * 0.3)` train
would then use is `0`, not nonzero. -/
theorem load_weights_nonzero_freeze_counterexample :
    (load_weights (fun m _ => m) (fun m _ => m) (YoloV4.init Unit) "w" "bogus")._has_weights
      = true ∧
    first_stage_epochs
      ((load_weights (fun m _ => m) (fun m _ => m) (YoloV4.init Unit) "w"
        "bogus")._has_weights) 3 = 0 := by
  constructor
  · rfl
  · show first_stage_epochs true 3 = 0
    rw [first_stage_epochs_true_eq]

/-- C7: in the video branch of `inference`, if the reads succeed without a
`q` keypress up to frame `j` and the read of frame `j` fails (unreadable
stream, empty video, or normal end of video), the loop raises
`ValueError("No image! Try with another video format")`; and the loop can
only terminate without an error by the `q` key being pressed. -/
theorem inference_video_loop_spec (read : ℕ → Option F) (key_q : ℕ → Bool)
    (fuel k j : ℕ)
    (hbefore : ∀ i, i < j → (read (k + i)).isSome = true ∧ key_q (k + i) = false)
    (hfail : read (k + j) = none) (hfuel : j < fuel) :
    inference_video_loop read key_q fuel k =
      .raised "No image! Try with another video format" ∧
    (∀ fuel' k', inference_video_loop read key_q fuel' k' = .quit →
      ∃ m, key_q m = true) := by
  constructor
  · induction j generalizing fuel k with
    | zero =>
        obtain ⟨f, rfl⟩ := Nat.exists_eq_succ_of_ne_zero (Nat.pos_iff_ne_zero.mp hfuel)
        rw [Nat.add_zero] at hfail
        rw [inference_video_loop, hfail]
    | succ j ih =>
        obtain ⟨f, rfl⟩ := Nat.exists_eq_succ_of_ne_zero (Nat.not_eq_zero_of_lt hfuel)
        have h0 := hbefore 0 (Nat.succ_pos j)
        rw [Nat.add_zero] at h0
        obtain ⟨fr, hfr⟩ := Option.isSome_iff_exists.mp h0.1
        rw [inference_video_loop, hfr]
        simp only [h0.2, Bool.false_eq_true, if_false]
        refine ih f (k + 1) ?_ ?_ (Nat.lt_of_succ_lt_succ hfuel)
        · intro i hi
          have := hbefore (i + 1) (Nat.succ_lt_succ hi)
          rwa [show k + (i + 1) = k + 1 + i by omega] at this
        · rwa [show k + 1 + j = k + (j + 1) by omega]
  · intro fuel' k'
    induction fuel' generalizing k' with
    | zero => intro h; simp [inference_video_loop] at h
    | succ f ih =>
        intro h
        rw [inference_video_loop] at h
        cases hr : read k' with
        | none => rw [hr] at h; simp at h
        | some fr =>
            rw [hr] at h
            by_cases hq : key_q k' = true
            · exact ⟨k', hq⟩
            · rw [if_neg hq] at h
              exact ih (k' + 1) h

/-- Witness for `inference_video_loop_spec`: an empty stream whose very
first read fails. -/
theorem inference_video_loop_spec_witness :
    (inference_video_loop (F := Unit) (fun _ => none) (fun _ => false) 1 0 =
      .raised "No image! Try with another video format") ∧
    (∀ fuel' k',
      inference_video_loop (F := Unit) (fun _ => none) (fun _ => false) fuel' k' = .quit →
      ∃ m, (fun _ : ℕ => false) m = true) :=
  inference_video_loop_spec (fun _ => none) (fun _ => false) 1 0 0
    (fun i hi => absurd hi (Nat.not_lt_zero i)) rfl (by decide)

/-- C8: `predict` is deterministic and stateless — as a state transformer it
returns the object state it was given (the method body never assigns to
`self`; the frame is preprocessed from a copy, and the external stages,
pure per spec §5, are modelled as functions), and equal inputs give equal
outputs. -/
theorem predict_call_stateless (env : PredictEnv M F I P) (y : YoloV4 M)
    (f1 f2 : F) (c : List (ℕ × String)) (h : f1 = f2) :
    (predict_call env y f1 c).2 = y ∧
    predict_call env y f1 c = predict_call env y f2 c :=
  ⟨rfl, by rw [h]⟩

/-- Witness for `predict_call_stateless` with trivial collaborators. -/
theorem predict_call_stateless_witness :
    (predict_call (M := Unit) (F := Unit) (I := Unit) (P := Unit)
        ⟨fun _ => (1, 1), fun _ _ => (), fun _ _ => (), fun _ _ _ _ => [],
          fun fr _ _ => fr, fun l => l⟩
        { YoloV4.init Unit with model := some () } () []).2 =
      { YoloV4.init Unit with model := some () } ∧
    predict_call (M := Unit) (F := Unit) (I := Unit) (P := Unit)
        ⟨fun _ => (1, 1), fun _ _ => (), fun _ _ => (), fun _ _ _ _ => [],
          fun fr _ _ => fr, fun l => l⟩
        { YoloV4.init Unit with model := some () } () [] =
      predict_call
        ⟨fun _ => (1, 1), fun _ _ => (), fun _ _ => (), fun _ _ _ _ => [],
          fun fr _ _ => fr, fun l => l⟩
        { YoloV4.init Unit with model := some () } () [] :=
  predict_call_stateless _ _ () () [] rfl

/-- The box picked by `select_max_score` is one of the candidates. -/
theorem select_max_score_mem {cand : List BBox} {b : BBox} {rest : List BBox}
    (h : select_max_score cand = some (b, rest)) : b ∈ cand := by
  induction cand generalizing b rest with
  | nil => simp [select_max_score] at h
  | cons a l ih =>
      rw [select_max_score] at h
      cases hm : select_max_score l with
      | none =>
          rw [hm] at h
          simp only [Option.some.injEq, Prod.mk.injEq] at h
          exact h.1 ▸ List.mem_cons_self a l
      | some p =>
          obtain ⟨m, others⟩ := p
          rw [hm] at h
          by_cases hs : m.score > a.score
          · simp only [if_pos hs, Option.some.injEq, Prod.mk.injEq] at h
            exact List.mem_cons_of_mem a (h.1 ▸ ih hm)
          · simp only [if_neg hs, Option.some.injEq, Prod.mk.injEq] at h
            exact h.1 ▸ List.mem_cons_self a l

/-- The remainder returned by `select_max_score` consists of candidates. -/
theorem select_max_score_rest_subset {cand : List BBox} {b : BBox} {rest : List BBox}
    (h : select_max_score cand = some (b, rest)) : ∀ x ∈ rest, x ∈ cand := by
  induction cand generalizing b rest with
  | nil => simp [select_max_score] at h
  | cons a l ih =>
      rw [select_max_score] at h
      cases hm : select_max_score l with
      | none =>
          rw [hm] at h
          simp only [Option.some.injEq, Prod.mk.injEq] at h
          intro x hx
          rw [← h.2] at hx
          simp at hx
      | some p =>
          obtain ⟨m, others⟩ := p
          rw [hm] at h
          by_cases hs : m.score > a.score
          · simp only [if_pos hs, Option.some.injEq, Prod.mk.injEq] at h
            intro x hx
            rw [← h.2] at hx
            rcases List.mem_cons.mp hx with hxa | hxo
            · exact hxa ▸ List.mem_cons_self a l
            · exact List.mem_cons_of_mem a (ih hm x hxo)
          · simp only [if_neg hs, Option.some.injEq, Prod.mk.injEq] at h
            intro x hx
            exact List.mem_cons_of_mem a (h.2 ▸ hx)

/-- Every box surviving one class's hard NMS was among its candidates. -/
theorem nms_one_class_subset (thr : ℚ) (fuel : ℕ) :
    ∀ (cand : List BBox), ∀ x ∈ nms_one_class thr fuel cand, x ∈ cand := by
  induction fuel with
  | zero => intro cand x hx; simp [nms_one_class] at hx
  | succ n ih =>
      intro cand x hx
      rw [nms_one_class] at hx
      cases hsel : select_max_score cand with
      | none => rw [hsel] at hx; simp at hx
      | some p =>
          obtain ⟨best, rest⟩ := p
          rw [hsel] at hx
          rcases List.mem_cons.mp hx with hxb | hxr
          · exact hxb ▸ select_max_score_mem hsel
          · have hmem := ih _ x hxr
            exact select_max_score_rest_subset hsel x (List.mem_filter.mp hmem).1

/-- Hard NMS per class is sound: any two boxes it keeps have IoU strictly
below the threshold. -/
theorem nms_one_class_pairwise (thr : ℚ) (fuel : ℕ) :
    ∀ (cand : List BBox),
      (nms_one_class thr fuel cand).Pairwise (fun a b => bboxes_iou a b < thr) := by
  induction fuel with
  | zero => intro cand; simp [nms_one_class]
  | succ n ih =>
      intro cand
      rw [nms_one_class]
      cases hsel : select_max_score cand with
      | none => exact List.Pairwise.nil
      | some p =>
          obtain ⟨best, rest⟩ := p
          refine List.pairwise_cons.mpr ⟨?_, ih _⟩
          intro x hx
          have hmem := nms_one_class_subset thr n _ x hx
          have := (List.mem_filter.mp hmem).2
          exact of_decide_eq_true this

/-- Every box kept by hard NMS is one of the input candidates, and its class
id is the class of the per-class pass that kept it. -/
theorem nms_hard_subset (soft : List BBox → List BBox) (bboxes : List BBox)
    (thr : ℚ) : ∀ x ∈ nms soft bboxes thr "nms", x ∈ bboxes := by
  intro x hx
  rw [nms, if_pos rfl] at hx
  obtain ⟨c, _, hxc⟩ := List.mem_flatMap.mp hx
  have := nms_one_class_subset thr _ _ x hxc
  exact (List.mem_filter.mp this).1

/-- Hard NMS never keeps two same-class boxes with IoU at or
above the threshold. -/
theorem nms_hard_pairwise (soft : List BBox → List BBox) (bboxes : List BBox)
    (thr : ℚ) :
    (nms soft bboxes thr "nms").Pairwise
      (fun a b => a.cls = b.cls → bboxes_iou a b < thr) := by
  rw [nms, if_pos rfl, List.pairwise_flatMap]
  constructor
  · intro c _
    exact (nms_one_class_pairwise thr _ _).imp
      (fun {a b} h (_ : a.cls = b.cls) => h)
  · have hnd : (classes_in_img bboxes).Nodup := List.nodup_dedup _
    refine hnd.imp_of_mem ?_
    intro c1 c2 _ _ hne x hx y hy hcls
    have hx1 : x.cls = c1 := by
      have := nms_one_class_subset thr _ _ x hx
      exact of_decide_eq_true (List.mem_filter.mp this).2
    have hy1 : y.cls = c2 := by
      have := nms_one_class_subset thr _ _ y hy
      exact of_decide_eq_true (List.mem_filter.mp this).2
    exact absurd (hx1 ▸ hy1 ▸ hcls) hne

/-- Every box produced by the score filter has
`score ≥ score_threshold`. -/
theorem postprocess_boxes_score (pred_bbox : List RawDet) (frame_size : ℚ × ℚ)
    (input_size score_threshold : ℚ) :
    ∀ b ∈ postprocess_boxes pred_bbox frame_size input_size score_threshold,
      score_threshold ≤ b.score := by
  intro b hb
  simp only [postprocess_boxes, List.mem_filterMap] at hb
  obtain ⟨d, _, hsome⟩ := hb
  split_ifs at hsome with hcond
  cases hsome
  exact hcond.2.2

/-- Evaluation of the pipeline on one concrete decoded detection, used by
the witness below: a confident 100×100 box centred in a 608×608 frame
passes the score filter and survives NMS. -/
theorem predict_detections_example_eval :
    predict_detections [⟨304, 304, 100, 100, 1, [1]⟩] (608, 608) 608 (fun l => l) =
      [⟨254, 254, 354, 354, 1, 0⟩] := by
  norm_num [predict_detections, nms, postprocess_boxes, max_prob, best_class,
    classes_in_img, nms_one_class, select_max_score, bboxes_iou, List.indexOf,
    List.findIdx, List.findIdx.go, List.dedup, List.pwFilter,
    List.filterMap_cons, List.filterMap_nil, List.filter_cons, List.filter_nil,
    List.map_cons, List.map_nil, List.flatMap_cons, List.flatMap_nil,
    List.foldr_cons, List.foldr_nil, List.length_cons, List.length_nil,
    max_def, min_def]

/-- C2: `predict` runs the score filter with threshold `0.25` and then
non-max suppression with IoU threshold `0.213` and the hard method (tag
`"nms"`) on every input frame: `predict` computes exactly
`predict_detections` of the decoded output, every final detection it draws
has score at least `0.25`, and no two same-class final detections have IoU
`0.213` or more. -/
theorem predict_detections_spec (pred_bbox : List RawDet) (frame_size : ℚ × ℚ)
    (width : ℚ) (soft : List BBox → List BBox) :
    (∀ b ∈ predict_detections pred_bbox frame_size width soft, (0.25 : ℚ) ≤ b.score) ∧
    ((predict_detections pred_bbox frame_size width soft).Pairwise
      (fun a b => a.cls = b.cls → bboxes_iou a b < 0.213)) ∧
    (∀ (env : PredictEnv M F I P) (y : YoloV4 M) frame classes,
      predict env y frame classes = y.model.map (fun m =>
        env.draw_bbox frame
          (predict_detections
            (env.postprocess_bbbox
              (env.model_predict m (env.image_preprocess frame (y.height, y.width)))
              y.anchors y.strides y.xyscale)
            (env.frame_shape frame) y.width env.soft_nms)
          classes)) := by
  refine ⟨?_, ?_, ?_⟩
  · intro b hb
    exact postprocess_boxes_score pred_bbox frame_size width 0.25 b
      (nms_hard_subset soft _ 0.213 b hb)
  · exact nms_hard_pairwise soft _ 0.213
  · intro env y frame classes
    rfl

/-- Witness for `predict_detections_spec` at one concrete confident
detection in a 608×608 frame. -/
theorem predict_detections_spec_witness :
    ((0.25 : ℚ) ≤ (BBox.mk 254 254 354 354 1 0).score ∧
      (predict_detections [⟨304, 304, 100, 100, 1, [1]⟩] (608, 608) 608
        (fun l => l)).Pairwise
        (fun a b => a.cls = b.cls → bboxes_iou a b < 0.213)) :=
  ⟨(predict_detections_spec (M := Unit) (F := Unit) (I := Unit) (P := Unit)
      [⟨304, 304, 100, 100, 1, [1]⟩] (608, 608) 608 (fun l => l)).1
      ⟨254, 254, 354, 354, 1, 0⟩
      (by rw [predict_detections_example_eval]; exact List.mem_singleton.mpr rfl),
    (predict_detections_spec (M := Unit) (F := Unit) (I := Unit) (P := Unit)
      [⟨304, 304, 100, 100, 1, [1]⟩] (608, 608) 608 (fun l => l)).2.1⟩
